import Mathlib

/-!
Shallow embedding of the `video_convert_tools` package
(`basics.py`, `convert_and_sort.py`, `convert_and_replace.py`)
and proofs about the behaviour of its conversion-and-verification pipeline.

File paths are modelled as triples (directory, stem, suffix); durations are
modelled as rationals.  Filesystem and external-tool behaviour is supplied by
oracles, and destructive operations are recorded as explicit action traces.
-/

namespace VideoConvertTools

/-- Mirrors the `FFMPEGConfig` dataclass in `basics.py`.  Optional language
lists use `Option (List String)`: `none` models Python `None` and `some []`
models an empty list (both are falsy in Python). -/
structure FFMPEGConfig where
  videoCodec : String
  videoConfig : List (String × String)
  audioCodec : String := "copy"
  audioConfig : List String := []
  subtitleLanguages : Option (List String) := none
  audioLanguages : Option (List String) := none
  maximumWidth : Option Nat := none
deriving DecidableEq

/-- Mirrors the frozen `VideoInfo` dataclass in `basics.py`. -/
structure VideoInfo where
  videoFile : String
  width : Nat
  height : Nat
  codec : String
  audioLanguages : List String
  subtitleLanguages : List String
  duration : ℚ
deriving DecidableEq

/-- Python truthiness of an optional list (`None` and `[]` are falsy). -/
def optTruthy : Option (List String) → Bool
  | none => false
  | some l => !l.isEmpty

/-- `MIN_DURATION_DIFFERENCE` from `convert_and_replace.py`. -/
def MIN_DURATION_DIFFERENCE : ℚ := 5

/-- The duration-verification condition of `convert_and_replace.main`
(lines 142-150): the conversion is rejected (the iteration `continue`s without
replacing the source) exactly when
`abs(target - source) > tolerance * source` and also exceeds the absolute
floor. -/
def durationRejected (sourceDuration targetDuration tolerance minAbs : ℚ) : Bool :=
  (|targetDuration - sourceDuration| > tolerance * sourceDuration) &&
  (|targetDuration - sourceDuration| > minAbs)

/-! ### Season parsing (`basics.find_season_info`)

`find_season_info` runs `re.search(r"([Ss])?(\d{1,2}).?[EeXx](\d{1,2})", s)`
and formats group 2 as `S%02d`.  The functions below implement exactly this
search: leftmost starting position, and at a position the backtracking order of
the Python engine — the optional `[Ss]` is tried consumed first, `\d{1,2}`
tries two digits before one, `.?` tries one character before none, and the
final `\d{1,2}` only needs one digit to exist. -/

/-- Character class `[EeXx]`. -/
def isExChar (c : Char) : Bool := c == 'E' || c == 'e' || c == 'X' || c == 'x'

/-- Character class `[Ss]`. -/
def isSChar (c : Char) : Bool := c == 'S' || c == 's'

/-- Numeric value of a digit character. -/
def digitVal (c : Char) : Nat := c.toNat - '0'.toNat

/-- Does the list start with a digit? (the final `\d{1,2}` needs one digit). -/
def headDigit : List Char → Bool
  | [] => false
  | c :: _ => c.isDigit

/-- Match `.?[EeXx]\d{1,2}` at the head of the list, `.?` greedy first. -/
def tailMatch : List Char → Bool
  | c :: d :: rest => (isExChar d && headDigit rest) || (isExChar c && d.isDigit)
  | _ => false

/-- Match `(\d{1,2}).?[EeXx]\d{1,2}` at the head of the list, returning the
numeric value of the digit group (greedy: two digits tried before one). -/
def digitsMatch : List Char → Option Nat
  | d1 :: d2 :: rest =>
    if d1.isDigit && d2.isDigit then
      if tailMatch rest then some (digitVal d1 * 10 + digitVal d2)
      else if tailMatch (d2 :: rest) then some (digitVal d1)
      else none
    else if d1.isDigit then
      if tailMatch (d2 :: rest) then some (digitVal d1) else none
    else none
  | _ => none

/-- `re.search` over the whole string: try each start position left to right;
at a position try the pattern with `[Ss]` consumed first, then without. -/
def seasonSearch : List Char → Option Nat
  | [] => none
  | c :: cs =>
    match (if isSChar c then digitsMatch cs else none) with
    | some v => some v
    | none =>
      match digitsMatch (c :: cs) with
      | some v => some v
      | none => seasonSearch cs

/-- Python `f"S{n:02d}"` for `0 ≤ n ≤ 99`. -/
def fmtSeason (n : Nat) : String :=
  if n < 10 then "S0" ++ toString n else "S" ++ toString n

/-- Mirrors `basics.find_season_info`: search the filename for the season
pattern and format the season number, defaulting to `"Unknown"`. -/
def find_season_info (s : String) : String :=
  match seasonSearch s.data with
  | some v => fmtSeason v
  | none => "Unknown"

/-! ### Python `str.replace` (used by `convert_and_sort.main` as
`output_file.stem.replace("264", "265")`): replace every non-overlapping
occurrence of the pattern, scanning left to right. -/

/-- Character-list core of Python `str.replace` (for a non-empty pattern),
fuelled so the recursion is structural; one unit of fuel is spent per emitted
chunk, so fuel equal to the input length always suffices. -/
def replaceAllGo (pat rep : List Char) : Nat → List Char → List Char
  | _, [] => []
  | 0, l => l
  | fuel + 1, c :: cs =>
    if !pat.isEmpty && pat.isPrefixOf (c :: cs) then
      rep ++ replaceAllGo pat rep fuel (List.drop pat.length (c :: cs))
    else
      c :: replaceAllGo pat rep fuel cs

/-- Replace every non-overlapping occurrence of `pat` (left to right). -/
def replaceAll (pat rep : List Char) (l : List Char) : List Char :=
  replaceAllGo pat rep l.length l

/-- Python `s.replace(pat, rep)` on strings (non-empty pattern). -/
def pyReplace (s pat rep : String) : String :=
  ⟨replaceAll pat.data rep.data s.data⟩

/-! ### Stream selection (`basics.convert_video`, lines 174-208)

`convert_video` builds the list `mux_streams`: the video stream, then either
the audio streams whose probed language is in `config.audio_languages`
(`enumerate` order) or — when that list is falsy and audio streams exist — the
`input_stream.audio` specifier, which maps every audio stream; subtitles are
handled identically.  The inductive type below records exactly these
alternatives. -/

inductive MuxStream where
  | video
  | audioIdx (i : Nat)
  | audioAll
  | subtitleIdx (i : Nat)
  | subtitleAll
deriving DecidableEq

/-- The `for index, lang in enumerate(...)` selection loop: indices (starting
at `i`) of the streams whose language is in `cfgLangs`, in iteration order. -/
def selectByLang (cfgLangs : List String) (i : Nat) : List String → List Nat
  | [] => []
  | l :: rest =>
    if l ∈ cfgLangs then i :: selectByLang cfgLangs (i + 1) rest
    else selectByLang cfgLangs (i + 1) rest

/-- The `mux_streams` list assembled by `convert_video` before the encoding
options are applied. -/
def muxStreams (cfg : FFMPEGConfig) (info : VideoInfo) : List MuxStream :=
  [MuxStream.video] ++
  (if optTruthy cfg.audioLanguages then
    (selectByLang (cfg.audioLanguages.getD []) 0 info.audioLanguages).map MuxStream.audioIdx
  else if info.audioLanguages.length > 0 then [MuxStream.audioAll]
  else []) ++
  (if optTruthy cfg.subtitleLanguages then
    (selectByLang (cfg.subtitleLanguages.getD []) 0 info.subtitleLanguages).map MuxStream.subtitleIdx
  else if info.subtitleLanguages.length > 0 then [MuxStream.subtitleAll]
  else [])

/-- Audio-stream indices denoted by a mux list: an explicit index denotes
itself, and the whole-input audio specifier (`0:a`) denotes every audio stream
of the input. -/
def audioIndices (streams : List MuxStream) (numAudio : Nat) : List Nat :=
  streams.flatMap fun s =>
    match s with
    | .audioIdx i => [i]
    | .audioAll => List.range numAudio
    | _ => []

/-- The audio-stream indices of the input that `convert_video` muxes into the
output. -/
def selectedAudioIndices (cfg : FFMPEGConfig) (info : VideoInfo) : List Nat :=
  audioIndices (muxStreams cfg info) info.audioLanguages.length

/-! ### Paths, filesystem actions and the cached prober

A path is modelled as a directory part plus the `stem`/`suffix` decomposition
that `pathlib.Path` performs on the file name (for the files handled by the
pipeline the suffix is the final dotted extension).  In the sort workflow the
directory part of a source file is its location relative to the source
folder.  Destructive filesystem and process effects are recorded as `Act`
values in the order the code performs them; probing is read-only and is not
recorded. -/

structure PFile where
  dir : String
  stem : String
  suffix : String
deriving DecidableEq

/-- The full path string of a file. -/
def pathStr (p : PFile) : String := p.dir ++ "/" ++ p.stem ++ p.suffix

/-- `Path.with_suffix`. -/
def withSuffix (p : PFile) (s : String) : PFile := { p with suffix := s }

/-- Python `str.lower` (character-wise lowering, which is exact for the ASCII
suffixes the pipeline compares). -/
def pyLower (s : String) : String := ⟨s.data.map Char.toLower⟩

/-- Destructive effects performed by the pipeline. -/
inductive Act where
  | execEngine (src out : String)
  | mkdir (d : String)
  | rename (src dst : String)
  | move (src dst : String)
  | unlink (p : String)
deriving DecidableEq

/-- State threaded through a batch run: the `functools.cache` memo of
`get_video_info` (keyed by path, caching `None` results as well) and the
current filesystem contents as probing would observe them. -/
structure RState where
  cache : List (String × Option VideoInfo)
  fs : String → Option VideoInfo

/-- `basics.get_video_info`: answer from the cache when the path was probed
before (whatever the answer was), otherwise probe the filesystem and memoise
the result. -/
def cachedProbe (st : RState) (p : String) : Option VideoInfo × RState :=
  match st.cache.lookup p with
  | some r => (r, st)
  | none =>
    let r := st.fs p
    (r, { st with cache := (p, r) :: st.cache })

/-- Record that the engine wrote `info` at path `p`. -/
def writeFs (st : RState) (p : String) (info : Option VideoInfo) : RState :=
  { st with fs := fun q => if q = p then info else st.fs q }

/-- External collaborators of a batch run: whether the engine invocation for a
source file exits successfully, and the metadata of the output it produces
when it does. -/
structure ConvEnv where
  execOk : PFile → Bool
  convOut : PFile → VideoInfo

/-! ### The replace workflow (`convert_and_replace.main`) -/

/-- Outcome of one iteration of the conversion loop of
`convert_and_replace.main` (lines 120-163). `targetInfo` is the local
`target_video_info` when the iteration reaches the verification step,
`replaced` records whether the converted output was moved over the source,
and `aborted` records an engine exception escaping the loop. -/
structure StepRes where
  st : RState
  acts : List Act
  aborted : Bool
  targetInfo : Option VideoInfo
  replaced : Bool

/-- One iteration of the conversion loop of `convert_and_replace.main`:
probe the source (cached), convert into the shared temporary path, and —
unless dry-run — re-probe the temporary path (cached!), check the duration
tolerance, and only then rename the source to `.mkv` (when needed) and move
the temporary output over it. -/
def replaceStep (env : ConvEnv) (tempPath : String) (tolerance : ℚ)
    (dryRun : Bool) (src : PFile) (st : RState) : StepRes :=
  let pr := cachedProbe st (pathStr src)
  match pr.1 with
  | none => ⟨pr.2, [], false, none, false⟩
  | some sinfo =>
    if dryRun then ⟨pr.2, [], false, none, false⟩
    else if env.execOk src then
      let st2 := writeFs pr.2 tempPath (some (env.convOut src))
      let act0 := Act.execEngine (pathStr src) tempPath
      let tr := cachedProbe st2 tempPath
      match tr.1 with
      | none => ⟨tr.2, [act0], false, none, false⟩
      | some tinfo =>
        if durationRejected sinfo.duration tinfo.duration tolerance MIN_DURATION_DIFFERENCE then
          ⟨tr.2, [act0], false, some tinfo, false⟩
        else
          let mkvPath := pathStr (withSuffix src ".mkv")
          let renames :=
            if pyLower src.suffix ≠ ".mkv" then [Act.rename (pathStr src) mkvPath] else []
          ⟨tr.2, [act0] ++ renames ++ [Act.move tempPath mkvPath], false, some tinfo, true⟩
    else ⟨pr.2, [Act.execEngine (pathStr src) tempPath], true, none, false⟩

/-- Per-file summary of a batch run. -/
structure FileOutcome where
  src : PFile
  targetInfo : Option VideoInfo
  replaced : Bool
deriving DecidableEq

/-- Result of the conversion loop of `convert_and_replace.main`. -/
structure LoopRes where
  st : RState
  outs : List FileOutcome
  acts : List Act
  aborted : Bool

/-- The conversion loop of `convert_and_replace.main`: an engine exception
aborts the remaining iterations, anything else continues. -/
def replaceLoop (env : ConvEnv) (tempPath : String) (tolerance : ℚ)
    (dryRun : Bool) : List PFile → RState → LoopRes
  | [], st => ⟨st, [], [], false⟩
  | f :: rest, st =>
    let r := replaceStep env tempPath tolerance dryRun f st
    if r.aborted then ⟨r.st, [⟨f, r.targetInfo, r.replaced⟩], r.acts, true⟩
    else
      let l := replaceLoop env tempPath tolerance dryRun rest r.st
      ⟨l.st, ⟨f, r.targetInfo, r.replaced⟩ :: l.outs, r.acts ++ l.acts, l.aborted⟩

/-- `convert_and_replace._filter_files_with_acceptable_codecs`: probe every
file (populating the cache) and keep those whose codec is not acceptable. -/
def filterAcceptable (acceptable : List String) :
    List PFile → RState → List PFile × RState
  | [], st => ([], st)
  | f :: rest, st =>
    let pr := cachedProbe st (pathStr f)
    match pr.1 with
    | none => filterAcceptable acceptable rest pr.2
    | some info =>
      let r := filterAcceptable acceptable rest pr.2
      if info.codec ∈ acceptable then r else (f :: r.1, r.2)

/-- `convert_and_replace.main` from the codec filter on: filter, then (unless
check-only) run the conversion loop and finally unlink the shared temporary
path — the unlink is skipped when an engine exception escapes the loop, since
the code has no `finally` block. -/
def replaceWorkflow (env : ConvEnv) (tempPath : String) (tolerance : ℚ)
    (dryRun checkOnly : Bool) (acceptable : List String)
    (files : List PFile) (st : RState) : List FileOutcome × List Act × Bool :=
  let fr := filterAcceptable acceptable files st
  if checkOnly then ([], [], false)
  else
    let l := replaceLoop env tempPath tolerance dryRun fr.1 fr.2
    if l.aborted then (l.outs, l.acts, true)
    else (l.outs, l.acts ++ [Act.unlink tempPath], false)

/-! ### `basics.convert_videos` -/

/-- Result of `basics.convert_videos`: the files whose conversion was
attempted, the effects performed, and whether an engine exception escaped the
loop (the code has no handler around `convert_video`, so a failed `run`
aborts the remaining iterations). -/
structure ConvManyRes where
  st : RState
  attempted : List PFile
  acts : List Act
  aborted : Bool

/-- `basics.convert_videos`: per pair, probe the input (cached), skip it on
probe error, otherwise run `convert_video`; in dry-run the command is only
logged, and an engine failure raises out of the loop. -/
def convertVideos (env : ConvEnv) (dryRun : Bool) :
    List (PFile × PFile) → RState → ConvManyRes
  | [], st => ⟨st, [], [], false⟩
  | (src, out) :: rest, st =>
    let pr := cachedProbe st (pathStr src)
    match pr.1 with
    | none => convertVideos env dryRun rest pr.2
    | some _ =>
      if dryRun then
        let r := convertVideos env dryRun rest pr.2
        { r with attempted := src :: r.attempted }
      else if env.execOk src then
        let st2 := writeFs pr.2 (pathStr out) (some (env.convOut src))
        let r := convertVideos env dryRun rest st2
        { r with
            attempted := src :: r.attempted
            acts := Act.execEngine (pathStr src) (pathStr out) :: r.acts }
      else
        ⟨pr.2, [src], [Act.execEngine (pathStr src) (pathStr out)], true⟩

/-! ### The sort workflow (`convert_and_sort.main`)

The hard-coded target codec of the workflow's `FFMPEGConfig` is
`"hevc_nvenc"`; the skip check at line 96 compares the probed codec name
against it.  For a source file, `dir` is its directory relative to the source
folder, so the mirrored destination directory is `targetFolder ++ "/" ++ dir`. -/

/-- Target codec hard-coded in `convert_and_sort.main`. -/
def SORT_TARGET_CODEC : String := "hevc_nvenc"

structure SortArgs where
  targetFolder : String
  dryRun : Bool
  resume : Bool
  keepFolder : Bool
  reencode : Bool

/-- Oracle for `output_file.exists()` in resume mode: existence is a function
of the path alone; the destination's content is never consulted. -/
structure SortEnv where
  destExists : String → Bool

/-- The directory of the per-file `output_file` before the stem/suffix
rewrite: the mirrored source layout, or a season folder parsed from the file
name. -/
def computeOutDir (a : SortArgs) (f : PFile) : String :=
  if a.keepFolder then a.targetFolder ++ "/" ++ f.dir
  else a.targetFolder ++ "/" ++ find_season_info (pathStr f)

/-- The destination path entered into the convert map for a source file:
`output_file.with_stem(output_file.stem.replace("264", "265"))
.with_suffix(".mkv")`. -/
def computeDest (a : SortArgs) (f : PFile) : PFile :=
  ⟨computeOutDir a f, pyReplace f.stem "264" "265", ".mkv"⟩

/-- The convert-map loop of `convert_and_sort.main` (lines 87-118): skip on
probe error, skip files already in the target codec unless re-encoding is
forced, create the destination directory (before the resume check and
regardless of dry-run), and skip the file when resume is set and the
destination exists. -/
def buildConvertMap (env : SortEnv) (a : SortArgs) :
    List PFile → RState → List (PFile × PFile) × List Act × RState
  | [], st => ([], [], st)
  | f :: rest, st =>
    let pr := cachedProbe st (pathStr f)
    match pr.1 with
    | none => buildConvertMap env a rest pr.2
    | some info =>
      if info.codec = SORT_TARGET_CODEC ∧ a.reencode = false then
        buildConvertMap env a rest pr.2
      else
        let dest := computeDest a f
        let r := buildConvertMap env a rest pr.2
        if a.resume ∧ env.destExists (pathStr dest) = true then
          (r.1, Act.mkdir (computeOutDir a f) :: r.2.1, r.2.2)
        else
          ((f, dest) :: r.1, Act.mkdir (computeOutDir a f) :: r.2.1, r.2.2)

/-- `convert_and_sort.main`: build the convert map, then hand its pairs to
`convert_videos`. -/
def sortMain (senv : SortEnv) (cenv : ConvEnv) (a : SortArgs)
    (files : List PFile) (st : RState) :
    List (PFile × PFile) × List Act × Bool :=
  let b := buildConvertMap senv a files st
  let r := convertVideos cenv a.dryRun b.1 b.2.2
  (b.1, b.2.1 ++ r.acts, r.aborted)

/-! ### Concrete instances used by witnesses and counterexamples -/

/-- A source file used to instantiate the per-file theorems. -/
def srcW : PFile := ⟨"movies", "clip", ".avi"⟩

/-- Probed metadata of `srcW`. -/
def infoW : VideoInfo := ⟨"movies/clip.avi", 1280, 720, "h264", ["eng"], [], 100⟩

/-- Metadata of the engine's output for `srcW`. -/
def outW : VideoInfo := ⟨"temp.mkv", 1280, 720, "hevc", ["eng"], [], 100⟩

/-- Collaborator oracle: the engine always succeeds and produces `outW`. -/
def envW : ConvEnv := ⟨fun _ => true, fun _ => outW⟩

/-- Initial batch state: empty cache, `srcW` on disk. -/
def stW : RState := ⟨[], fun p => if p = pathStr srcW then some infoW else none⟩

/-- A second source file, probed at duration 200. -/
def src2W : PFile := ⟨"movies", "clip2", ".mp4"⟩

/-- Probed metadata of `src2W`. -/
def info2W : VideoInfo := ⟨"movies/clip2.mp4", 1280, 720, "h264", ["eng"], [], 200⟩

/-- Metadata of the engine's output for `src2W` (duration matches its source). -/
def out2W : VideoInfo := ⟨"temp.mkv", 1280, 720, "hevc", ["eng"], [], 200⟩

/-- Collaborator oracle whose engine invocation always fails. -/
def failEnvW : ConvEnv := ⟨fun _ => false, fun _ => outW⟩

/-- Initial batch state with both source files on disk and no temp file. -/
def st2W : RState :=
  ⟨[], fun p =>
    if p = pathStr srcW then some infoW
    else if p = pathStr src2W then some info2W
    else none⟩

/-- Destination path for `srcW` in a sort batch. -/
def outPathW : PFile := ⟨"target", "clip", ".mkv"⟩

/-- Destination path for `src2W` in a sort batch. -/
def outPath2W : PFile := ⟨"target", "clip2", ".mkv"⟩

/-- Collaborator oracle for the stale-cache run: the engine always succeeds
and each source's output metadata matches its source duration. -/
def envC4 : ConvEnv := ⟨fun _ => true, fun s => if s = srcW then outW else out2W⟩

/-- Config selecting English audio only. -/
def cfgW6 : FFMPEGConfig := ⟨"hevc_nvenc", [], "copy", [], none, some ["eng"], none⟩

/-- Config with no audio-language filter. -/
def cfgAllW6 : FFMPEGConfig := ⟨"hevc_nvenc", [], "copy", [], none, none, none⟩

/-- Probed media with three audio streams (languages ger, eng, eng). -/
def infoW6 : VideoInfo :=
  ⟨"movies/clip.avi", 1280, 720, "h264", ["ger", "eng", "eng"], ["eng"], 100⟩

/-- Sort-workflow oracle under which no destination exists yet. -/
def sortEnvW : SortEnv := ⟨fun _ => false⟩

/-- Sort-workflow oracle under which every destination already exists. -/
def sortEnvExists : SortEnv := ⟨fun _ => true⟩

/-- Dry-run sort arguments (season folders, no resume, no reencode). -/
def sortArgsDry : SortArgs := ⟨"target", true, false, false, false⟩

/-- Plain sort arguments (no dry run, no resume, season folders, no reencode). -/
def sortArgsPlain : SortArgs := ⟨"target", false, false, false, false⟩

/-- Resume-mode sort arguments. -/
def sortArgsResume : SortArgs := ⟨"target", false, true, false, false⟩

/-- A source file already encoded in HEVC. -/
def srcHevc : PFile := ⟨"shows", "already", ".mkv"⟩

/-- Probed metadata of `srcHevc`: its codec name is `"hevc"`. -/
def infoHevc : VideoInfo := ⟨"shows/already.mkv", 1920, 1080, "hevc", ["eng"], [], 100⟩

/-- State with `srcHevc` on disk. -/
def stHevc : RState := ⟨[], fun p => if p = pathStr srcHevc then some infoHevc else none⟩

/-- A source file with `"264"` in its stem. -/
def srcH264 : PFile := ⟨"shows", "Show.x264", ".mp4"⟩

/-- Probed metadata of `srcH264`. -/
def infoH264 : VideoInfo := ⟨"shows/Show.x264.mp4", 1920, 1080, "h264", ["eng"], [], 100⟩

/-- State with `srcH264` on disk. -/
def stH264 : RState := ⟨[], fun p => if p = pathStr srcH264 then some infoH264 else none⟩

/-! ## Theorems -/

/-- C1: verification accepts a conversion unless both thresholds are
exceeded — for source duration `ds > 0`, output duration `dout`, tolerance
`t` and absolute floor `m`, the conversion is rejected iff
`|dout - ds| > t * ds` and `|dout - ds| > m`; with `ds = 100`, `t = 0.05`
and `m = 5`, a difference of `4.9` is accepted and one of `6` is rejected. -/
theorem duration_two_threshold_rule (ds dout t m : ℚ) (hds : 0 < ds) :
    (durationRejected ds dout t m = true ↔
      (|dout - ds| > t * ds ∧ |dout - ds| > m))
    ∧ durationRejected 100 (100 + 49/10) (5/100) 5 = false
    ∧ durationRejected 100 (100 + 6) (5/100) 5 = true := by
  refine ⟨?_, ?_, ?_⟩
  · simp [durationRejected]
  · simp only [durationRejected]
    norm_num [abs_of_nonneg]
  · simp only [durationRejected]
    norm_num [abs_of_nonneg]

/-- Witness for `duration_two_threshold_rule` at `ds = 100`. -/
theorem duration_two_threshold_rule_witness :
    durationRejected 100 (100 + 49/10) (5/100) 5 = false :=
  (duration_two_threshold_rule 100 (100 + 49/10) (5/100) 5 (by norm_num)).2.1

/-- C5 (evaluation): the season parser maps four of the spec's examples as
stated, but returns `"Unknown"` for `"ShowSeason04Episode12.mkv"` and
`"Show.E10.S05.mkv"`, for which the spec (and the repository's own test
`test_season_info`) demand `"S04"` and `"S05"`. -/
theorem season_parser_on_spec_examples :
    find_season_info "Show.S01E01.mkv" = "S01"
    ∧ find_season_info "Show_S02_E05.mp4" = "S02"
    ∧ find_season_info "Show-3x10.avi" = "S03"
    ∧ find_season_info "ShowSeason04Episode12.mkv" = "Unknown"
    ∧ find_season_info "Show.E10.S05.mkv" = "Unknown"
    ∧ find_season_info "RandomVideo.mkv" = "Unknown" := by
  refine ⟨?_, ?_, ?_, ?_, ?_, ?_⟩ <;> decide

/-- C2: in the replace workflow, the source file is never renamed or moved
over before verification of the converted output has succeeded: a rename or
move action appears in an iteration's effects only when the source probe and
the output probe both returned metadata and the duration check accepted; an
iteration whose output was not verified performed no rename and no move; and
after a successful engine run the iteration always continues (output-probe
failure and duration rejection do not abort the batch loop). -/
theorem replace_commit_only_after_verification (env : ConvEnv) (tempPath : String)
    (tol : ℚ) (dryRun : Bool) (src : PFile) (st : RState) :
    ((∃ a b, Act.rename a b ∈ (replaceStep env tempPath tol dryRun src st).acts
       ∨ Act.move a b ∈ (replaceStep env tempPath tol dryRun src st).acts) →
      ∃ sinfo tinfo,
        (cachedProbe st (pathStr src)).1 = some sinfo
        ∧ (replaceStep env tempPath tol dryRun src st).targetInfo = some tinfo
        ∧ durationRejected sinfo.duration tinfo.duration tol MIN_DURATION_DIFFERENCE = false
        ∧ dryRun = false)
    ∧ ((replaceStep env tempPath tol dryRun src st).replaced = false →
        ∀ a b, Act.rename a b ∉ (replaceStep env tempPath tol dryRun src st).acts
          ∧ Act.move a b ∉ (replaceStep env tempPath tol dryRun src st).acts)
    ∧ (∀ sinfo, (cachedProbe st (pathStr src)).1 = some sinfo → env.execOk src = true →
        (replaceStep env tempPath tol dryRun src st).aborted = false) := by
  cases hp : (cachedProbe st (pathStr src)).1 with
  | none => simp [replaceStep, hp]
  | some sinfo =>
    cases dryRun with
    | true => simp [replaceStep, hp]
    | false =>
      by_cases he : env.execOk src
      · cases ht : (cachedProbe (writeFs (cachedProbe st (pathStr src)).2 tempPath
            (some (env.convOut src))) tempPath).1 with
        | none => simp [replaceStep, hp, he, ht]
        | some tinfo =>
          by_cases hrej : durationRejected sinfo.duration tinfo.duration tol
              MIN_DURATION_DIFFERENCE = true
          · simp [replaceStep, hp, he, ht, hrej]
          · by_cases hsfx : pyLower src.suffix = ".mkv"
            · simp [replaceStep, hp, he, ht, hrej, hsfx]
            · simp [replaceStep, hp, he, ht, hrej, hsfx]
      · simp [replaceStep, hp, he]


/-- Witness for `replace_commit_only_after_verification`: on a run that did
rename and move, the probes succeeded and the duration check accepted. -/
theorem replace_commit_only_after_verification_witness :
    ∃ sinfo tinfo,
      (cachedProbe stW (pathStr srcW)).1 = some sinfo
      ∧ (replaceStep envW "temp.mkv" 0 false srcW stW).targetInfo = some tinfo
      ∧ durationRejected sinfo.duration tinfo.duration 0 MIN_DURATION_DIFFERENCE = false
      ∧ (false : Bool) = false :=
  (replace_commit_only_after_verification envW "temp.mkv" 0 false srcW stW).1 (by
    refine ⟨pathStr srcW, pathStr (withSuffix srcW ".mkv"), Or.inl ?_⟩
    have hrej : durationRejected (100:ℚ) 100 0 5 = false := by norm_num [durationRejected]
    have hsfx : (pyLower ".avi" = ".mkv") = False := by decide
    simp [replaceStep, cachedProbe, List.lookup, writeFs, srcW, envW, stW, infoW, outW,
      withSuffix, pathStr, hrej, hsfx, MIN_DURATION_DIFFERENCE])


/-- C3 (counterexample): an engine failure is not a per-file failure — on a
two-file batch whose first conversion fails, the loop aborts and the second
file is never attempted, because `convert_video` runs the command with no
exception handler. -/
theorem engine_failure_abort_counterexample :
    (convertVideos failEnvW false [(srcW, outPathW), (src2W, outPath2W)] st2W).aborted = true
    ∧ src2W ∉ (convertVideos failEnvW false [(srcW, outPathW), (src2W, outPath2W)] st2W).attempted := by
  decide

/-- C3 (amended): an engine failure on a file aborts the batch — the failing
file is the last one attempted and no further effect is performed — while a
probe failure is a per-file skip after which the loop continues with the
remaining files. -/
theorem engine_failure_aborts_batch (env : ConvEnv) (src out : PFile)
    (rest : List (PFile × PFile)) (st : RState) (sinfo : VideoInfo)
    (hp : (cachedProbe st (pathStr src)).1 = some sinfo)
    (he : env.execOk src = false) :
    (convertVideos env false ((src, out) :: rest) st).aborted = true
    ∧ (convertVideos env false ((src, out) :: rest) st).attempted = [src]
    ∧ (convertVideos env false ((src, out) :: rest) st).acts
        = [Act.execEngine (pathStr src) (pathStr out)]
    ∧ (∀ st' : RState, (cachedProbe st' (pathStr src)).1 = none →
        convertVideos env false ((src, out) :: rest) st'
          = convertVideos env false rest (cachedProbe st' (pathStr src)).2) := by
  refine ⟨?_, ?_, ?_, ?_⟩
  · simp [convertVideos, hp, he]
  · simp [convertVideos, hp, he]
  · simp [convertVideos, hp, he]
  · intro st' hn
    simp [convertVideos, hn]

/-- Witness for `engine_failure_aborts_batch` on a concrete one-file batch. -/
theorem engine_failure_aborts_batch_witness :
    (convertVideos failEnvW false [(srcW, outPathW)] st2W).aborted = true
    ∧ (convertVideos failEnvW false [(srcW, outPathW)] st2W).attempted = [srcW]
    ∧ (convertVideos failEnvW false [(srcW, outPathW)] st2W).acts
        = [Act.execEngine (pathStr srcW) (pathStr outPathW)]
    ∧ (∀ st' : RState, (cachedProbe st' (pathStr srcW)).1 = none →
        convertVideos failEnvW false [(srcW, outPathW)] st'
          = convertVideos failEnvW false [] (cachedProbe st' (pathStr srcW)).2) :=
  engine_failure_aborts_batch failEnvW srcW outPathW [] st2W infoW (by decide) (by decide)


/-- C4 (evaluation of the defect): in a replace batch over two files sharing
the temporary output path, the verification of the second file uses `outW` —
the cached metadata of the FIRST file's output (duration 100) — instead of
re-probing the output just produced for it, and therefore rejects the second
file (`replaced = false`), even though the metadata of its own output
(duration 200, matching its source) would have been accepted. -/
theorem stale_cached_probe_used_for_second_file :
    (replaceLoop envC4 "temp.mkv" 0 false [srcW, src2W] st2W).outs
      = [⟨srcW, some outW, true⟩, ⟨src2W, some outW, false⟩]
    ∧ (envC4.convOut src2W).duration = 200
    ∧ durationRejected info2W.duration (envC4.convOut src2W).duration 0
        MIN_DURATION_DIFFERENCE = false := by
  have h1 : durationRejected (100:ℚ) 100 0 5 = false := by norm_num [durationRejected]
  have h2 : durationRejected (200:ℚ) 100 0 5 = true := by norm_num [durationRejected]
  have h3 : durationRejected (200:ℚ) 200 0 5 = false := by norm_num [durationRejected]
  refine ⟨?_, by decide, ?_⟩
  · simp [replaceLoop, replaceStep, cachedProbe, List.lookup, writeFs, srcW, src2W,
      envC4, st2W, infoW, info2W, outW, out2W, withSuffix, pathStr, pyLower,
      MIN_DURATION_DIFFERENCE, h1, h2]
  · simp [envC4, info2W, out2W, srcW, src2W, pathStr, MIN_DURATION_DIFFERENCE, h3]

/-- Every index produced by the enumerate-selection loop is at least the
starting index. -/
theorem selectByLang_lower (cfg : List String) (langs : List String) :
    ∀ i j, j ∈ selectByLang cfg i langs → i ≤ j := by
  induction langs with
  | nil => intro i j h; simp [selectByLang] at h
  | cons l rest ih =>
    intro i j h
    simp only [selectByLang] at h
    by_cases hl : l ∈ cfg
    · rw [if_pos hl] at h
      rcases List.mem_cons.mp h with rfl | h
      · exact le_refl j
      · exact Nat.le_of_succ_le (ih (i+1) j h)
    · rw [if_neg hl] at h
      exact Nat.le_of_succ_le (ih (i+1) j h)

/-- The enumerate-selection loop produces strictly increasing indices. -/
theorem selectByLang_pairwise (cfg : List String) (langs : List String) :
    ∀ i, List.Pairwise (· < ·) (selectByLang cfg i langs) := by
  induction langs with
  | nil => intro i; simp [selectByLang]
  | cons l rest ih =>
    intro i
    simp only [selectByLang]
    by_cases hl : l ∈ cfg
    · rw [if_pos hl]
      refine List.pairwise_cons.mpr ⟨?_, ih (i+1)⟩
      intro j hj
      exact lt_of_lt_of_le (Nat.lt_succ_self i) (selectByLang_lower cfg rest (i+1) j hj)
    · rw [if_neg hl]; exact ih (i+1)

/-- Characterisation of the enumerate-selection loop: an index is produced iff
the stream at the corresponding position has a selected language. -/
theorem selectByLang_mem (cfg : List String) (langs : List String) :
    ∀ i j, j ∈ selectByLang cfg i langs ↔
      ∃ k, ∃ hk : k < langs.length, j = i + k ∧ langs[k] ∈ cfg := by
  induction langs with
  | nil => intro i j; simp [selectByLang]
  | cons l rest ih =>
    intro i j
    simp only [selectByLang]
    by_cases hl : l ∈ cfg
    · rw [if_pos hl]
      constructor
      · intro h
        rcases List.mem_cons.mp h with rfl | h
        · exact ⟨0, by simp, by simp, by simpa using hl⟩
        · obtain ⟨k, hk, rfl, hmem⟩ := (ih (i+1) j).mp h
          refine ⟨k+1, by simpa using Nat.succ_lt_succ hk, by omega, by simpa using hmem⟩
      · rintro ⟨k, hk, rfl, hmem⟩
        cases k with
        | zero => simp
        | succ k =>
          refine List.mem_cons_of_mem _ ((ih (i+1) (i + (k+1))).mpr ⟨k, ?_, by omega, ?_⟩)
          · simpa using Nat.lt_of_succ_lt_succ hk
          · simpa using hmem
    · rw [if_neg hl]
      constructor
      · intro h
        obtain ⟨k, hk, rfl, hmem⟩ := (ih (i+1) j).mp h
        refine ⟨k+1, by simpa using Nat.succ_lt_succ hk, by omega, by simpa using hmem⟩
      · rintro ⟨k, hk, rfl, hmem⟩
        cases k with
        | zero => simp at hmem; exact absurd hmem hl
        | succ k =>
          refine (ih (i+1) (i + (k+1))).mpr ⟨k, ?_, by omega, ?_⟩
          · simpa using Nat.lt_of_succ_lt_succ hk
          · simpa using hmem

/-- `audioIndices` distributes over concatenation of mux lists. -/
theorem audioIndices_append (xs ys : List MuxStream) (n : Nat) :
    audioIndices (xs ++ ys) n = audioIndices xs n ++ audioIndices ys n := by
  simp [audioIndices]

/-- Explicit audio-index entries denote exactly themselves. -/
theorem audioIndices_map_audioIdx (s : List Nat) (n : Nat) :
    audioIndices (s.map MuxStream.audioIdx) n = s := by
  induction s with
  | nil => simp [audioIndices]
  | cons a rest ih =>
    simp only [List.map_cons, audioIndices, List.flatMap_cons] at ih ⊢
    simp_all

/-- Subtitle entries contribute no audio indices. -/
theorem audioIndices_map_subtitleIdx (s : List Nat) (n : Nat) :
    audioIndices (s.map MuxStream.subtitleIdx) n = [] := by
  induction s with
  | nil => simp [audioIndices]
  | cons a rest ih =>
    simp only [List.map_cons, audioIndices, List.flatMap_cons] at ih ⊢
    simp_all

/-- The audio indices muxed by `convert_video` depend only on the audio
branch of `mux_streams`: the video entry and the subtitle branch contribute
none. -/
theorem selectedAudioIndices_audio_branch (cfg : FFMPEGConfig) (info : VideoInfo) :
    selectedAudioIndices cfg info =
      audioIndices
        (if optTruthy cfg.audioLanguages then
          (selectByLang (cfg.audioLanguages.getD []) 0 info.audioLanguages).map MuxStream.audioIdx
        else if info.audioLanguages.length > 0 then [MuxStream.audioAll]
        else []) info.audioLanguages.length := by
  have hsub : audioIndices
      (if optTruthy cfg.subtitleLanguages then
        (selectByLang (cfg.subtitleLanguages.getD []) 0 info.subtitleLanguages).map MuxStream.subtitleIdx
      else if info.subtitleLanguages.length > 0 then [MuxStream.subtitleAll]
      else []) info.audioLanguages.length = [] := by
    split
    · exact audioIndices_map_subtitleIdx _ _
    · split
      · simp [audioIndices]
      · simp [audioIndices]
  rw [selectedAudioIndices, muxStreams, audioIndices_append, audioIndices_append, hsub]
  simp [audioIndices]

/-- C6: audio-stream selection — with a non-empty configured language list,
exactly the audio streams whose probed language is in the list are selected,
in ascending stream-index order (possibly none, which is not an error); with
an unset or empty list and at least one audio stream, all audio streams are
selected; with no audio streams, none are selected. -/
theorem audio_stream_selection (cfg : FFMPEGConfig) (info : VideoInfo) :
    (∀ l, cfg.audioLanguages = some l → l ≠ [] →
      (List.Pairwise (· < ·) (selectedAudioIndices cfg info)
       ∧ ∀ j, j ∈ selectedAudioIndices cfg info ↔
           ∃ hk : j < info.audioLanguages.length, info.audioLanguages[j] ∈ l))
    ∧ ((cfg.audioLanguages = none ∨ cfg.audioLanguages = some []) →
        info.audioLanguages ≠ [] →
        selectedAudioIndices cfg info = List.range info.audioLanguages.length)
    ∧ (info.audioLanguages = [] → selectedAudioIndices cfg info = []) := by
  refine ⟨?_, ?_, ?_⟩
  · intro l hl hne
    have htr : optTruthy cfg.audioLanguages = true := by
      simp [optTruthy, hl, hne]
    have heq : selectedAudioIndices cfg info = selectByLang l 0 info.audioLanguages := by
      rw [selectedAudioIndices_audio_branch, htr, if_pos rfl, hl, Option.getD_some,
        audioIndices_map_audioIdx]
    rw [heq]
    refine ⟨selectByLang_pairwise l info.audioLanguages 0, ?_⟩
    intro j
    rw [selectByLang_mem l info.audioLanguages 0 j]
    constructor
    · rintro ⟨k, hk, rfl, hmem⟩
      simp only [Nat.zero_add]
      exact ⟨by simpa using hk, by simpa using hmem⟩
    · rintro ⟨hk, hmem⟩
      exact ⟨j, hk, by omega, hmem⟩
  · intro hcfg hne
    have htr : optTruthy cfg.audioLanguages = false := by
      rcases hcfg with h | h <;> simp [optTruthy, h]
    rw [selectedAudioIndices_audio_branch, htr]
    rw [if_neg (by simp)]
    rw [if_pos (by simpa [List.length_pos] using hne)]
    simp [audioIndices]
  · intro hnil
    rw [selectedAudioIndices_audio_branch]
    by_cases htr : optTruthy cfg.audioLanguages
    · rw [if_pos htr, hnil]
      simp [selectByLang, audioIndices]
    · rw [if_neg htr, hnil]
      simp [audioIndices]

/-- Witness for `audio_stream_selection`: the English-only filter over
streams (ger, eng, eng), and the no-filter config over the same streams. -/
theorem audio_stream_selection_witness :
    (List.Pairwise (· < ·) (selectedAudioIndices cfgW6 infoW6)
      ∧ ∀ j, j ∈ selectedAudioIndices cfgW6 infoW6 ↔
          ∃ hk : j < infoW6.audioLanguages.length, infoW6.audioLanguages[j] ∈ ["eng"])
    ∧ selectedAudioIndices cfgAllW6 infoW6 = List.range infoW6.audioLanguages.length :=
  ⟨(audio_stream_selection cfgW6 infoW6).1 ["eng"] rfl (by decide),
   (audio_stream_selection cfgAllW6 infoW6).2.1 (Or.inl rfl) (by decide)⟩

/-- Every action recorded while building the convert map is a directory
creation (the map-building loop performs `mkdir` before the resume check and
independently of the dry-run flag). -/
theorem buildConvertMap_acts_mkdir (senv : SortEnv) (a : SortArgs) :
    ∀ files st, ∀ act ∈ (buildConvertMap senv a files st).2.1, ∃ d, act = Act.mkdir d := by
  intro files
  induction files with
  | nil => intro st act h; simp [buildConvertMap] at h
  | cons f rest ih =>
    intro st act h
    cases hp : (cachedProbe st (pathStr f)).1 with
    | none =>
      simp only [buildConvertMap, hp] at h
      exact ih _ act h
    | some info =>
      simp only [buildConvertMap, hp] at h
      split at h
      · exact ih _ act h
      · split at h
        · rcases List.mem_cons.mp h with rfl | h
          · exact ⟨_, rfl⟩
          · exact ih _ act h
        · rcases List.mem_cons.mp h with rfl | h
          · exact ⟨_, rfl⟩
          · exact ih _ act h

/-- In dry-run, `convert_videos` performs no destructive effect. -/
theorem convertVideos_dry_acts (cenv : ConvEnv) : ∀ pairs st,
    (convertVideos cenv true pairs st).acts = [] := by
  intro pairs
  induction pairs with
  | nil => intro st; simp [convertVideos]
  | cons p rest ih =>
    intro st
    obtain ⟨src, out⟩ := p
    cases hp : (cachedProbe st (pathStr src)).1 with
    | none => simp [convertVideos, hp, ih]
    | some i => simp [convertVideos, hp, ih]

/-- In dry-run, one replace-workflow iteration performs no destructive effect
and never aborts. -/
theorem replaceStep_dry (env : ConvEnv) (temp : String) (tol : ℚ) (src : PFile) (st : RState) :
    (replaceStep env temp tol true src st).acts = []
    ∧ (replaceStep env temp tol true src st).aborted = false := by
  cases hp : (cachedProbe st (pathStr src)).1 with
  | none => simp [replaceStep, hp]
  | some s => simp [replaceStep, hp]

/-- In dry-run, the replace-workflow loop performs no destructive effect. -/
theorem replaceLoop_dry (env : ConvEnv) (temp : String) (tol : ℚ) : ∀ files st,
    (replaceLoop env temp tol true files st).acts = []
    ∧ (replaceLoop env temp tol true files st).aborted = false := by
  intro files
  induction files with
  | nil => intro st; simp [replaceLoop]
  | cons f rest ih =>
    intro st
    have hs := replaceStep_dry env temp tol f st
    simp [replaceLoop, hs.1, hs.2, (ih _).1, (ih _).2]

/-- C7 (counterexample): with the dry-run flag set, the sort workflow still
creates a destination directory — on a one-file batch the trace contains
`mkdir target/Unknown`, performed while building the convert map. -/
theorem dry_run_mkdir_counterexample :
    sortArgsDry.dryRun = true
    ∧ Act.mkdir "target/Unknown" ∈ (sortMain sortEnvW envW sortArgsDry [srcW] st2W).2.1 := by
  decide

/-- C7 (amended): with the dry-run flag set, no engine process is invoked, no
output is written and no rename, move or unlink is performed by the per-file
pipeline — every sort-workflow action is a directory creation, and the
replace workflow's only action is the unconditional batch-end unlink of the
shared temporary path (none when check-only returns early). -/
theorem dry_run_side_effects (senv : SortEnv) (cenv : ConvEnv) (a : SortArgs)
    (files : List PFile) (st : RState) (env : ConvEnv) (temp : String) (tol : ℚ)
    (checkOnly : Bool) (acceptable : List String) (files2 : List PFile) (st2 : RState)
    (hdry : a.dryRun = true) :
    (∀ act ∈ (sortMain senv cenv a files st).2.1, ∃ d, act = Act.mkdir d)
    ∧ (replaceWorkflow env temp tol true checkOnly acceptable files2 st2).2.1
        = (if checkOnly then [] else [Act.unlink temp]) := by
  constructor
  · intro act h
    simp only [sortMain, hdry] at h
    rcases List.mem_append.mp h with h | h
    · exact buildConvertMap_acts_mkdir senv a files st act h
    · rw [convertVideos_dry_acts] at h
      simp at h
  · have hl := replaceLoop_dry env temp tol
        (filterAcceptable acceptable files2 st2).1 (filterAcceptable acceptable files2 st2).2
    simp only [replaceWorkflow, hl.1, hl.2]
    by_cases hco : checkOnly
    · simp [hco]
    · simp [hco]

/-- Witness for `dry_run_side_effects` on concrete one-file batches. -/
theorem dry_run_side_effects_witness :
    (∀ act ∈ (sortMain sortEnvW envW sortArgsDry [srcW] st2W).2.1, ∃ d, act = Act.mkdir d)
    ∧ (replaceWorkflow envW "temp.mkv" 0 true false ["hevc"] [srcW] st2W).2.1
        = (if false then [] else [Act.unlink "temp.mkv"]) :=
  dry_run_side_effects sortEnvW envW sortArgsDry [srcW] st2W envW "temp.mkv" 0 false
    ["hevc"] [srcW] st2W rfl

/-- C8 (evaluation of the defect): the sort workflow's skip check compares
the probed codec name against the configured encoder name `"hevc_nvenc"`, so
a source probed as `"hevc"` is NOT skipped when the re-encode flag is off: it
enters the convert map and is re-encoded. -/
theorem hevc_source_not_skipped :
    (cachedProbe stHevc (pathStr srcHevc)).1 = some infoHevc
    ∧ infoHevc.codec = "hevc"
    ∧ sortArgsPlain.reencode = false
    ∧ SORT_TARGET_CODEC = "hevc_nvenc"
    ∧ (srcHevc, computeDest sortArgsPlain srcHevc)
        ∈ (buildConvertMap sortEnvW sortArgsPlain [srcHevc] stHevc).1 := by
  decide

/-- `convert_videos` only attempts files that appear as sources of its input
pairs. -/
theorem convertVideos_attempted_sub (cenv : ConvEnv) (dryRun : Bool) : ∀ pairs st,
    ∀ f ∈ (convertVideos cenv dryRun pairs st).attempted, f ∈ pairs.map Prod.fst := by
  intro pairs
  induction pairs with
  | nil => intro st f h; simp [convertVideos] at h
  | cons p rest ih =>
    intro st f h
    obtain ⟨src, out⟩ := p
    simp only [List.map_cons]
    cases hp : (cachedProbe st (pathStr src)).1 with
    | none =>
      simp only [convertVideos, hp] at h
      exact List.mem_cons_of_mem _ (ih _ f h)
    | some i =>
      cases dryRun with
      | true =>
        simp [convertVideos, hp] at h
        rcases h with rfl | h
        · exact List.mem_cons_self _ _
        · exact List.mem_cons_of_mem _ (ih _ f h)
      | false =>
        by_cases he : cenv.execOk src
        · simp [convertVideos, hp, he] at h
          rcases h with rfl | h
          · exact List.mem_cons_self _ _
          · exact List.mem_cons_of_mem _ (ih _ f h)
        · simp [convertVideos, hp, he] at h
          subst h
          exact List.mem_cons_self _ _

/-- With resume set and the computed destination existing, a file never
enters the convert map. -/
theorem buildConvertMap_resume_skip (senv : SortEnv) (a : SortArgs) (f : PFile)
    (hres : a.resume = true)
    (hex : senv.destExists (pathStr (computeDest a f)) = true) :
    ∀ files st d, (f, d) ∉ (buildConvertMap senv a files st).1 := by
  intro files
  induction files with
  | nil => intro st d h; simp [buildConvertMap] at h
  | cons g rest ih =>
    intro st d h
    cases hp : (cachedProbe st (pathStr g)).1 with
    | none =>
      simp only [buildConvertMap, hp] at h
      exact ih _ d h
    | some info =>
      simp only [buildConvertMap, hp] at h
      split at h
      · exact ih _ d h
      · split at h
        · exact ih _ d h
        · rcases List.mem_cons.mp h with heq | h
          · have hfg : f = g := congrArg Prod.fst heq
            subst hfg
            rename_i hcond
            exact hcond ⟨hres, hex⟩
          · exact ih _ d h

/-- C9: with the resume flag set, a file whose computed destination path
exists (existence queried by path alone, never by content) is skipped — it
appears in the convert map under no destination, and no conversion is
attempted for it by the subsequent `convert_videos` run. -/
theorem resume_skips_existing_destination (senv : SortEnv) (a : SortArgs) (f : PFile)
    (hres : a.resume = true)
    (hex : senv.destExists (pathStr (computeDest a f)) = true) :
    ∀ files st,
      (∀ d, (f, d) ∉ (buildConvertMap senv a files st).1)
      ∧ ∀ cenv, f ∉ (convertVideos cenv a.dryRun (buildConvertMap senv a files st).1
          (buildConvertMap senv a files st).2.2).attempted := by
  intro files st
  refine ⟨fun d => buildConvertMap_resume_skip senv a f hres hex files st d, ?_⟩
  intro cenv hmem
  have h := convertVideos_attempted_sub cenv a.dryRun _ _ f hmem
  obtain ⟨⟨s, d⟩, hin, hfst⟩ := List.mem_map.mp h
  simp only at hfst
  subst hfst
  exact buildConvertMap_resume_skip senv a s hres hex files st d hin

/-- Witness for `resume_skips_existing_destination` on a concrete batch where
every destination exists. -/
theorem resume_skips_existing_destination_witness :
    (∀ d, (srcW, d) ∉ (buildConvertMap sortEnvExists sortArgsResume [srcW] st2W).1)
    ∧ ∀ cenv, srcW ∉ (convertVideos cenv sortArgsResume.dryRun
        (buildConvertMap sortEnvExists sortArgsResume [srcW] st2W).1
        (buildConvertMap sortEnvExists sortArgsResume [srcW] st2W).2.2).attempted :=
  resume_skips_existing_destination sortEnvExists sortArgsResume srcW rfl rfl [srcW] st2W

/-- C10: every destination entered into the convert map carries the source
stem with each occurrence of `"264"` replaced by `"265"`, and the `.mkv`
extension, whatever the source extension was. -/
theorem convert_map_destination_filename (senv : SortEnv) (a : SortArgs) : ∀ files st s d,
    (s, d) ∈ (buildConvertMap senv a files st).1 →
    d.stem = pyReplace s.stem "264" "265" ∧ d.suffix = ".mkv" := by
  intro files
  induction files with
  | nil => intro st s d h; simp [buildConvertMap] at h
  | cons g rest ih =>
    intro st s d h
    cases hp : (cachedProbe st (pathStr g)).1 with
    | none =>
      simp only [buildConvertMap, hp] at h
      exact ih _ s d h
    | some info =>
      simp only [buildConvertMap, hp] at h
      split at h
      · exact ih _ s d h
      · split at h
        · exact ih _ s d h
        · rcases List.mem_cons.mp h with heq | h
          · have hs : s = g := congrArg Prod.fst heq
            have hd : d = computeDest a g := congrArg Prod.snd heq
            subst hs
            subst hd
            exact ⟨rfl, rfl⟩
          · exact ih _ s d h

/-- Witness for `convert_map_destination_filename` on a source named
`Show.x264.mp4`. -/
theorem convert_map_destination_filename_witness :
    (computeDest sortArgsPlain srcH264).stem = pyReplace srcH264.stem "264" "265"
    ∧ (computeDest sortArgsPlain srcH264).suffix = ".mkv" :=
  convert_map_destination_filename sortEnvW sortArgsPlain [srcH264] stH264 srcH264
    (computeDest sortArgsPlain srcH264) (by decide)

end VideoConvertTools
